import Mathlib

/-!
Verification of the Gmail-Filtering-System repository.

This file gives a shallow embedding of the dataframe operations in
src/src/filters/email_filters.py, the pagination loop in
src/src/data/gmail_data_extractor.py and the two CLI drivers
transform_email_labels.py and filter_job_applications.py, and proves the
stated properties about them.

Modelling conventions:
- a pandas DataFrame is a list of column names plus a list of rows, a row
  being an association list from column names to string cell values;
- pandas string matching with an escaped literal pattern is literal
  substring search; case=False is modelled by lowercasing both sides;
- Python code that can raise (KeyError on a missing column, the
  AttributeError from dereferencing a failed re.search) is Option-valued;
- external routines (email.utils.parseaddr, the Gmail service, the
  filesystem, pandas.read_csv) are passed in as function parameters.
-/

namespace GmailSpec

/-- A dataframe row: an association list from column names to string cell
values, as produced by one CSV record. -/
abbrev Row := List (String × String)

/-- A pandas DataFrame: its column list and its rows. -/
structure DataFrame where
  cols : List String
  rows : List Row

deriving instance DecidableEq for DataFrame

/-- Cell access df[c] on one row: the value at the first matching key; an
absent key yields the empty string. -/
def getV : Row → String → String
  | [], _ => ""
  | kv :: rest, c => if kv.1 == c then kv.2 else getV rest c

/-- Prefix test on character lists: startsWithL pat l is true when pat is an
initial segment of l (Python str.startswith). -/
def startsWithL : List Char → List Char → Bool
  | [], _ => true
  | _ :: _, [] => false
  | a :: as, b :: bs => a == b && startsWithL as bs

/-- Substring test on character lists: containsL pat l is true when pat
occurs contiguously somewhere in l. -/
def containsL (pat : List Char) : List Char → Bool
  | [] => startsWithL pat []
  | c :: rest => startsWithL pat (c :: rest) || containsL pat rest

/-- Literal substring test on strings, case sensitive (the label filter's
str.contains with a metacharacter-free pattern). -/
def strContains (hay pat : String) : Bool :=
  containsL pat.toList hay.toList

/-- Case-insensitive literal substring test (str.contains with case=False on
a re.escape-d keyword). -/
def strContainsCI (hay pat : String) : Bool :=
  containsL (pat.toList.map Char.toLower) (hay.toList.map Char.toLower)

/-- Python str.startswith on strings. -/
def strStartsWith (s pre : String) : Bool :=
  startsWithL pre.toList s.toList

/-- Whether a cell value matches the alternation pattern that
extract_job_application_rows builds by joining the re.escape-d keywords with
bars: the empty join (no keywords) matches everything, otherwise some
keyword must occur case-insensitively in the value. -/
def matchesKeywords (v : String) (kws : List String) : Bool :=
  kws.isEmpty || kws.any (fun k => strContainsCI v k)

/-- The boolean-Series fold of extract_job_application_rows: starting from
False, OR in a match test for every requested column that is present in the
frame's columns, restricted to one row. -/
def anyColMatches (dfCols columns kws : List String) (r : Row) : Bool :=
  columns.foldl
    (fun acc c => if dfCols.contains c then acc || matchesKeywords (getV r c) kws else acc)
    false

/-- extract_job_application_rows (src/src/filters/email_filters.py): keep
the rows where some searched column matches a keyword and no searched
column matches an exclude keyword. -/
def extract_job_application_rows (df : DataFrame) (columns kws ekws : List String) :
    DataFrame :=
  ⟨df.cols,
   df.rows.filter (fun r =>
     anyColMatches df.cols columns kws r && !anyColMatches df.cols columns ekws r)⟩

/-- The apostrophe character, by code point. -/
def aposChar : Char := Char.ofNat 39

/-- Characters admitted by the regex character class excluding the slash and
the apostrophe. -/
def statusChar (c : Char) : Bool :=
  c != '/' && c != aposChar

/-- The maximal run of status characters that follows position k plus the
pattern length in l: the greedy capture of the status group when the whole
pattern matches at position k. -/
def runAt (pat l : List Char) (k : Nat) : List Char :=
  (l.drop (k + pat.length)).takeWhile statusChar

/-- Position k of l starts a full match of the status regex: the literal pat
(label_name followed by a slash) is at k and at least one status character
follows it. -/
def matchAt (pat l : List Char) (k : Nat) : Bool :=
  startsWithL pat (l.drop k) && !(runAt pat l k).isEmpty

/-- re.search of the pattern label_name/[^/both-excluded]+ over a character
list: try positions left to right and return the greedy capture at the
first position where the whole pattern matches. -/
def searchStatus (pat : List Char) : List Char → Option (List Char)
  | [] => none
  | c :: rest =>
    if startsWithL pat (c :: rest) && !(((c :: rest).drop pat.length).takeWhile statusChar).isEmpty
    then some (((c :: rest).drop pat.length).takeWhile statusChar)
    else searchStatus pat rest

/-- The regex of extract_application_status_col applied to one Labels value:
the value of the named group of re.search over label_name followed by a
slash and the status class, or none when the search fails (the point where
the Python dereferences None). label_name is taken as a literal pattern; the
defaults JOBS and JOB contain no regex metacharacters. -/
def statusSearch (label_name labels : String) : Option String :=
  (searchStatus (label_name.toList ++ ['/']) labels.toList).map (fun l => String.mk l)

/-- filter_df_by_label: keep the rows whose Labels value contains
label_name. -/
def filter_df_by_label (label_name : String) (rows : List Row) : List Row :=
  rows.filter (fun r => strContains (getV r "Labels") label_name)

/-- filter_out_sent: drop the rows whose From value starts with the literal
string Arthur Zakirov. -/
def filter_out_sent (rows : List Row) : List Row :=
  rows.filter (fun r => !strStartsWith (getV r "From") "Arthur Zakirov")

/-- The rows that transform_dataframe retains: the label filter followed by
the sent filter. -/
def keptRows (label_name : String) (df : DataFrame) : List Row :=
  filter_out_sent (filter_df_by_label label_name df.rows)

/-- Pandas column assignment on one row: replace the value of an existing
column in place, or append the new column at the end. -/
def upsertRow : Row → String → String → Row
  | [], k, v => [(k, v)]
  | kv :: rest, k, v => if kv.1 == k then (k, v) :: rest else kv :: upsertRow rest k v

/-- The columns dropped at the end of transform_dataframe. -/
def droppedCols : List String := ["From", "Labels", "Body", "ID", "To"]

/-- df.drop(columns=droppedCols) restricted to one row. -/
def dropRowCols (r : Row) : Row :=
  r.filter (fun kv => !droppedCols.contains kv.1)

/-- Pandas column assignment at the frame level: a new column name is
appended to the column list, an existing one keeps its place. -/
def addCol (cols : List String) (c : String) : List String :=
  if cols.contains c then cols else cols ++ [c]

/-- The per-row effect of transform_dataframe's assignments and drop: the
ApplicationStatus value from the Labels regex (none models the Python crash
on a failed search), then Name and Email from parseaddr of the From value,
then the column drop. parseaddr (email.utils) is external and passed in. -/
def transformRow (parseaddr : String → String × String) (label_name : String) (r : Row) :
    Option Row :=
  (statusSearch label_name (getV r "Labels")).map (fun st =>
    dropRowCols
      (upsertRow
        (upsertRow (upsertRow r "ApplicationStatus" st) "Name" (parseaddr (getV r "From")).1)
        "Email" (parseaddr (getV r "From")).2))

/-- Option-valued map over a list, failing as soon as one element fails (a
vectorized .apply that raises on the first bad row). -/
def optMapM (f : α → Option β) : List α → Option (List β)
  | [] => some []
  | a :: as =>
    match f a, optMapM f as with
    | some b, some bs => some (b :: bs)
    | _, _ => none

/-- The column list after transform_dataframe's three assignments. -/
def assignedCols (cols : List String) : List String :=
  addCol (addCol (addCol cols "ApplicationStatus") "Name") "Email"

/-- transform_dataframe (src/src/filters/email_filters.py). The fallible
points of the Python are modelled as none: a missing Labels or From column
(KeyError), a row where the status regex finds no match (AttributeError on
the None search result), and a dropped column missing from the frame
(KeyError in df.drop). -/
def transform_dataframe (parseaddr : String → String × String) (label_name : String)
    (df : DataFrame) : Option DataFrame :=
  if df.cols.contains "Labels" && df.cols.contains "From" then
    match optMapM (transformRow parseaddr label_name) (keptRows label_name df) with
    | none => none
    | some outRows =>
      if droppedCols.all (fun c => (assignedCols df.cols).contains c) then
        some ⟨(assignedCols df.cols).filter (fun c => !droppedCols.contains c), outRows⟩
      else none
  else none

/-- A Gmail message as returned by the messages().get endpoint: its id
field, its label ids and its payload headers (name, value pairs). -/
structure GmailMessage where
  id : String
  labelIds : List String
  headers : List (String × String)

/-- Deterministic model of the remote Gmail service used by
fetch_gmail_messages_as_df: the labels().list response, the messages().list
pages (a page token is a position in this list, the next-page token is its
successor while pages remain, and the last page carries none), the
messages().get endpoint, and the raw-message body extraction performed by
fetch_mime_message plus fetch_email_body. -/
structure ServiceModel where
  labels : List (String × String)
  pages : List (List String)
  getMsg : String → GmailMessage
  getBody : String → String

/-- fetch_label_mapping (src/src/data/gmail_data_extractor.py): the dict
comprehension over the labels().list response; a repeated id keeps its first
position and its last value, as a Python dict does. -/
def fetch_label_mapping (labels : List (String × String)) : List (String × String) :=
  labels.foldl (fun acc kv => upsertRow acc kv.1 kv.2) []

/-- label_mapping.get(label_id, default Unknown). -/
def lookupLabel (m : List (String × String)) (i : String) : String :=
  match m.find? (fun kv => kv.1 == i) with
  | some kv => kv.2
  | none => "Unknown"

/-- One fetched row: the Labels, Body and ID fields plus one dict entry per
header whose name is among the requested columns. -/
structure MessageRow where
  labels : List String
  body : String
  id : String
  fields : List (String × String)

deriving instance DecidableEq for MessageRow

/-- The header loop of fetch_gmail_messages_as_df: dict insertion of every
header whose name is requested; a repeated header name keeps the last
value. -/
def headerFields (columns : List String) (headers : List (String × String)) :
    List (String × String) :=
  headers.foldl (fun acc h => if columns.contains h.1 then upsertRow acc h.1 h.2 else acc) []

/-- The row built for one message id in the inner loop of
fetch_gmail_messages_as_df. -/
def mkRow (svc : ServiceModel) (columns : List String) (mid : String) : MessageRow :=
  ⟨(svc.getMsg mid).labelIds.map (lookupLabel (fetch_label_mapping svc.labels)),
   svc.getBody mid,
   (svc.getMsg mid).id,
   headerFields columns (svc.getMsg mid).headers⟩

/-- The while loop of fetch_gmail_messages_as_df: consume one page per
iteration, appending one row per message of the page to the accumulated
list, and stop when no next-page token remains. -/
def fetchLoop (svc : ServiceModel) (columns : List String) :
    List (List String) → List MessageRow → List MessageRow
  | [], acc => acc
  | page :: rest, acc => fetchLoop svc columns rest (acc ++ page.map (mkRow svc columns))

/-- fetch_gmail_messages_as_df (src/src/data/gmail_data_extractor.py),
returning the row list of the resulting frame. The resultSizeEstimate call
and the progress bar have no effect on the result and are omitted. -/
def fetch_gmail_messages_as_df (svc : ServiceModel) (columns : List String) :
    List MessageRow :=
  fetchLoop svc columns svc.pages []

/-- The two error kinds raised by validate_input_file. -/
inductive ValidateError where
  | valueError : ValidateError
  | fileNotFound : ValidateError

deriving instance DecidableEq for ValidateError

/-- Python str.endswith after str.lower, for the .csv suffix test: the
lowercased path, reversed, starts with the reversed suffix. -/
def csvSuffix (path : String) : Bool :=
  startsWithL ".csv".toList.reverse (path.toList.map Char.toLower).reverse

/-- validate_input_file (identical in transform_email_labels.py and
filter_job_applications.py): ValueError unless the lowercased path ends in
.csv, then FileNotFoundError unless the path exists. The filesystem is
passed in as an existence test. -/
def validate_input_file (fsExists : String → Bool) (path : String) :
    Except ValidateError Unit :=
  if !csvSuffix path then Except.error ValidateError.valueError
  else if !fsExists path then Except.error ValidateError.fileNotFound
  else Except.ok ()

/-- Outcome of one CLI run: the process exit code and the written output
file (path and frame), none when nothing is written. -/
structure ScriptResult where
  exitCode : Nat
  written : Option (String × DataFrame)

deriving instance DecidableEq for ScriptResult

/-- transform_labels (transform_email_labels.py): validate the input path,
load the CSV (read_csv is passed in; none models a read error, and an empty
frame is rejected), require the Labels and From columns, transform, and
write the output unless dry-run; every raised error is caught at top level
and turns into exit status 1 with nothing written. -/
def transform_labels_run (fsExists : String → Bool) (readCsv : String → Option DataFrame)
    (parseaddr : String → String × String) (input outPath label_name : String)
    (dryRun : Bool) : ScriptResult :=
  match validate_input_file fsExists input with
  | Except.error _ => ⟨1, none⟩
  | Except.ok _ =>
    match readCsv input with
    | none => ⟨1, none⟩
    | some df =>
      if df.rows.isEmpty || df.cols.isEmpty then ⟨1, none⟩
      else if !(df.cols.contains "Labels" && df.cols.contains "From") then ⟨1, none⟩
      else
        match transform_dataframe parseaddr label_name df with
        | none => ⟨1, none⟩
        | some out => if dryRun then ⟨0, none⟩ else ⟨0, some (outPath, out)⟩

/-- filter_job_applications (filter_job_applications.py): validate the input
path, load the CSV, restrict the searched columns to those present (error
when none is), filter, and write the output unless dry-run; every raised
error is caught at top level and turns into exit status 1 with nothing
written. -/
def filter_job_applications_run (fsExists : String → Bool)
    (readCsv : String → Option DataFrame) (input outPath : String)
    (columns kws ekws : List String) (dryRun : Bool) : ScriptResult :=
  match validate_input_file fsExists input with
  | Except.error _ => ⟨1, none⟩
  | Except.ok _ =>
    match readCsv input with
    | none => ⟨1, none⟩
    | some df =>
      if df.rows.isEmpty || df.cols.isEmpty then ⟨1, none⟩
      else
        match columns.filter (fun c => df.cols.contains c) with
        | [] => ⟨1, none⟩
        | avail =>
          if dryRun then ⟨0, none⟩
          else ⟨0, some (outPath, extract_job_application_rows df avail kws ekws)⟩

/-- Modelled from the spec wording for the status extraction: the maximal
run of status characters immediately following the first occurrence of
label_name followed by a slash in the Labels string, disregarding whether
that run is empty. Compared against statusSearch, which embeds the code. -/
def firstOccRun (label_name labels : String) : Option String :=
  match (List.range labels.toList.length).find?
      (fun k => startsWithL (label_name.toList ++ ['/']) (labels.toList.drop k)) with
  | some k => some (String.mk (runAt (label_name.toList ++ ['/']) labels.toList k))
  | none => none

/-- A parseaddr stand-in for concrete evaluations: no display name, the raw
string as the address. -/
def paOk : String → String × String := fun s => ("", s)

/-- A concrete row that passes both filters of transform_dataframe. -/
def rowOk1 : Row :=
  [("Subject", "application received"), ("Labels", "JOBS/Applied"),
   ("From", "HR Team hr@x.com"), ("Body", "b"), ("ID", "1"), ("To", "me@x.com")]

/-- A concrete row dropped by filter_out_sent. -/
def rowOk2 : Row :=
  [("Subject", "news"), ("Labels", "JOBS/Denied"),
   ("From", "Arthur Zakirov a@z.com"), ("Body", "b"), ("ID", "2"), ("To", "me@x.com")]

/-- A concrete input frame on which transform_dataframe succeeds. -/
def dfOk : DataFrame :=
  ⟨["Subject", "Labels", "From", "Body", "ID", "To"], [rowOk1, rowOk2]⟩

/-- The output frame of transform_dataframe on dfOk with label JOBS. -/
def outOk : DataFrame :=
  ⟨["Subject", "ApplicationStatus", "Name", "Email"],
   [[("Subject", "application received"), ("ApplicationStatus", "Applied"),
     ("Name", ""), ("Email", "HR Team hr@x.com")]]⟩

/-- A Labels value whose first occurrence of JOBS followed by a slash is
followed by an apostrophe, while a later occurrence carries a status run:
JOBS/ then an apostrophe then JOBS/abc. -/
def lblC2 : String :=
  "JOBS/" ++ String.mk [aposChar] ++ "JOBS/abc"

/-- A concrete frame for the status-extraction comparison: one row whose
Labels value is lblC2. -/
def dfC2 : DataFrame :=
  ⟨["Labels", "From", "Body", "ID", "To"],
   [[("Labels", lblC2), ("From", "a@b"), ("Body", "x"), ("ID", "1"), ("To", "c@d")]]⟩

/-- A concrete frame whose single row passes the label filter while its
Labels value JOBS is not followed by a slash anywhere. -/
def dfC3 : DataFrame :=
  ⟨["Labels", "From", "Body", "ID", "To"],
   [[("Labels", "JOBS"), ("From", "a@b"), ("Body", "x"), ("ID", "1"), ("To", "c@d")]]⟩

/-! Helper lemmas about the embedded operations. -/

theorem foldlOrEq (p q : String → Bool) (cs : List String) (b : Bool) :
    cs.foldl (fun acc c => if p c then acc || q c else acc) b
      = (b || cs.any (fun c => p c && q c)) := by
  induction cs generalizing b with
  | nil => simp
  | cons c cs ih =>
    by_cases h : p c = true
    · simp [h, ih, Bool.or_assoc]
    · simp only [Bool.not_eq_true] at h
      simp [h, ih]

theorem anyColMatches_eq (dfCols columns kws : List String) (r : Row) :
    anyColMatches dfCols columns kws r
      = columns.any (fun c => dfCols.contains c && matchesKeywords (getV r c) kws) := by
  unfold anyColMatches
  rw [foldlOrEq (fun c => dfCols.contains c) (fun c => matchesKeywords (getV r c) kws)]
  simp

theorem optMapM_some (f : α → Option β) :
    ∀ (l : List α) (l2 : List β), optMapM f l = some l2 →
      List.Forall₂ (fun a b => f a = some b) l l2 := by
  intro l
  induction l with
  | nil =>
    intro l2 h
    simp only [optMapM, Option.some.injEq] at h
    subst h
    exact List.Forall₂.nil
  | cons a as ih =>
    intro l2 h
    unfold optMapM at h
    cases hfa : f a with
    | none => rw [hfa] at h; simp at h
    | some b =>
      cases hrest : optMapM f as with
      | none => rw [hfa, hrest] at h; simp at h
      | some bs =>
        rw [hfa, hrest] at h
        simp only [Option.some.injEq] at h
        subst h
        exact List.Forall₂.cons hfa (ih bs hrest)

theorem getV_upsert_same (r : Row) (k v : String) : getV (upsertRow r k v) k = v := by
  induction r with
  | nil => simp [upsertRow, getV]
  | cons kv rest ih =>
    unfold upsertRow
    by_cases h : (kv.1 == k) = true
    · simp [h, getV]
    · simp only [Bool.not_eq_true] at h
      simp [h, getV, ih]

theorem getV_upsert_other (r : Row) (k v c : String) (hne : c ≠ k) :
    getV (upsertRow r k v) c = getV r c := by
  have hkc : (k == c) = false := by simpa using Ne.symm hne
  induction r with
  | nil => simp [upsertRow, getV, hkc]
  | cons kv rest ih =>
    unfold upsertRow
    by_cases h : (kv.1 == k) = true
    · have hk : kv.1 = k := by simpa using h
      simp [getV, h, hk, hkc]
    · simp only [Bool.not_eq_true] at h
      by_cases hc : (kv.1 == c) = true
      · simp [getV, h, hc]
      · simp only [Bool.not_eq_true] at hc
        simp [getV, h, hc, ih]

theorem getV_dropRowCols (r : Row) (k : String) (h : droppedCols.contains k = false) :
    getV (dropRowCols r) k = getV r k := by
  induction r with
  | nil => rfl
  | cons kv rest ih =>
    unfold dropRowCols at ih ⊢
    rw [List.filter_cons]
    cases hb : (kv.1 == k) with
    | true =>
      have he : kv.1 = k := by simpa using hb
      have hd : (!droppedCols.contains kv.1) = true := by rw [he, h]; rfl
      rw [if_pos hd]
      simp [getV, hb]
    | false =>
      cases hdk : droppedCols.contains kv.1 with
      | true =>
        rw [if_neg (by simp)]
        simp only [getV, hb]
        exact ih
      | false =>
        rw [if_pos (by simp)]
        simp only [getV, hb]
        exact ih

theorem runAt_zero (pat l : List Char) :
    runAt pat l 0 = (l.drop pat.length).takeWhile statusChar := by
  unfold runAt
  rw [Nat.zero_add]

theorem runAt_cons (pat : List Char) (c : Char) (l : List Char) (k : Nat) :
    runAt pat (c :: l) (k + 1) = runAt pat l k := by
  unfold runAt
  rw [Nat.add_right_comm k 1 pat.length]
  rfl

theorem matchAt_zero (pat l : List Char) :
    matchAt pat l 0
      = (startsWithL pat l && !((l.drop pat.length).takeWhile statusChar).isEmpty) := by
  unfold matchAt
  rw [runAt_zero]
  simp

theorem matchAt_cons (pat : List Char) (c : Char) (l : List Char) (k : Nat) :
    matchAt pat (c :: l) (k + 1) = matchAt pat l k := by
  unfold matchAt
  rw [runAt_cons]
  rfl

theorem searchStatus_none (pat : List Char) :
    ∀ l : List Char, searchStatus pat l = none → ∀ k, matchAt pat l k = false := by
  intro l
  induction l with
  | nil =>
    intro _ k
    unfold matchAt runAt
    simp
  | cons c rest ih =>
    intro h k
    unfold searchStatus at h
    cases h0 : (startsWithL pat (c :: rest)
        && !(((c :: rest).drop pat.length).takeWhile statusChar).isEmpty) with
    | true => rw [h0] at h; simp at h
    | false =>
      rw [h0] at h
      simp only [Bool.false_eq_true, if_false] at h
      match k with
      | 0 => rw [matchAt_zero]; exact h0
      | k + 1 => rw [matchAt_cons]; exact ih h k

theorem searchStatus_some (pat : List Char) :
    ∀ l run : List Char, searchStatus pat l = some run →
      ∃ k, matchAt pat l k = true ∧ (∀ j, j < k → matchAt pat l j = false)
        ∧ run = runAt pat l k := by
  intro l
  induction l with
  | nil => intro run h; simp [searchStatus] at h
  | cons c rest ih =>
    intro run h
    unfold searchStatus at h
    cases h0 : (startsWithL pat (c :: rest)
        && !(((c :: rest).drop pat.length).takeWhile statusChar).isEmpty) with
    | true =>
      rw [h0] at h
      simp only [if_true, Option.some.injEq] at h
      refine ⟨0, ?_, ?_, ?_⟩
      · rw [matchAt_zero]; exact h0
      · intro j hj; omega
      · rw [runAt_zero]; exact h.symm
    | false =>
      rw [h0] at h
      simp only [Bool.false_eq_true, if_false] at h
      obtain ⟨k, h1, h2, h3⟩ := ih run h
      refine ⟨k + 1, ?_, ?_, ?_⟩
      · rw [matchAt_cons]; exact h1
      · intro j hj
        match j with
        | 0 => rw [matchAt_zero]; exact h0
        | j + 1 => rw [matchAt_cons]; exact h2 j (by omega)
      · rw [runAt_cons]; exact h3

theorem searchStatus_isSome (pat l : List Char) (k : Nat) (h : matchAt pat l k = true) :
    (searchStatus pat l).isSome = true := by
  cases hs : searchStatus pat l with
  | some run => rfl
  | none =>
    have := searchStatus_none pat l hs k
    rw [h] at this
    cases this

theorem keptRows_sublist (ln : String) (df : DataFrame) :
    (keptRows ln df).Sublist df.rows := by
  unfold keptRows filter_out_sent filter_df_by_label
  exact (List.filter_sublist _).trans (List.filter_sublist _)

theorem keptRows_mem (ln : String) (df : DataFrame) (r : Row) (h : r ∈ keptRows ln df) :
    r ∈ df.rows ∧ strContains (getV r "Labels") ln = true
      ∧ strStartsWith (getV r "From") "Arthur Zakirov" = false := by
  unfold keptRows filter_out_sent filter_df_by_label at h
  rw [List.mem_filter] at h
  obtain ⟨h1, h2⟩ := h
  rw [List.mem_filter] at h1
  exact ⟨h1.1, h1.2, by simpa using h2⟩

theorem transform_dataframe_some (pa : String → String × String) (ln : String)
    (df out : DataFrame) (h : transform_dataframe pa ln df = some out) :
    optMapM (transformRow pa ln) (keptRows ln df) = some out.rows
      ∧ out.cols = (assignedCols df.cols).filter (fun c => !droppedCols.contains c) := by
  unfold transform_dataframe at h
  split at h
  · split at h
    · exact absurd h (by simp)
    · rename_i outRows heq
      split at h
      · have hout := Option.some.inj h
        rw [← hout]
        exact ⟨heq, rfl⟩
      · exact absurd h (by simp)
  · exact absurd h (by simp)

theorem contains_iff (l : List String) (a : String) : l.contains a = true ↔ a ∈ l :=
  List.elem_iff

theorem contains_false_iff (l : List String) (a : String) :
    l.contains a = false ↔ a ∉ l := by
  constructor
  · intro h hm
    rw [← contains_iff] at hm
    rw [h] at hm
    cases hm
  · intro h
    cases hb : l.contains a
    · rfl
    · exact absurd ((contains_iff _ _).mp hb) h

theorem mem_addCol (cols : List String) (c x : String) :
    x ∈ addCol cols c ↔ (x ∈ cols ∨ x = c) := by
  unfold addCol
  split
  · rename_i h
    have hc : c ∈ cols := (contains_iff _ _).mp h
    constructor
    · exact Or.inl
    · rintro (h1 | rfl)
      · exact h1
      · exact hc
  · simp

theorem anyCol_exists (dfCols columns kws : List String) (r : Row)
    (hk : kws.isEmpty = false) :
    anyColMatches dfCols columns kws r = true ↔
      ∃ c ∈ columns, c ∈ dfCols ∧ ∃ k ∈ kws, strContainsCI (getV r c) k = true := by
  rw [anyColMatches_eq]
  simp only [matchesKeywords, hk, Bool.false_or, List.any_eq_true, Bool.and_eq_true,
    contains_iff]

theorem forall2_mem_right {α β : Type} {R : α → β → Prop} :
    ∀ {l1 : List α} {l2 : List β}, List.Forall₂ R l1 l2 → ∀ {b}, b ∈ l2 →
      ∃ a ∈ l1, R a b := by
  intro l1 l2 hf
  induction hf with
  | nil => intro b hb; cases hb
  | cons hab htl ih =>
    intro b hb
    rcases List.mem_cons.mp hb with rfl | hb
    · exact ⟨_, List.mem_cons_self _ _, hab⟩
    · obtain ⟨a, ha, hr⟩ := ih hb
      exact ⟨a, List.mem_cons_of_mem _ ha, hr⟩

/-! Claim theorems. -/

/-- C1: with non-empty keyword and exclude-keyword lists,
extract_job_application_rows keeps a row exactly when some searched column
present in the frame contains a keyword as a case-insensitive literal
substring and no searched column present in the frame contains an
exclude keyword; all other rows are dropped. -/
theorem C1_extract_keep_iff (df : DataFrame) (columns kws ekws : List String)
    (hk : kws ≠ []) (he : ekws ≠ []) (r : Row) :
    r ∈ (extract_job_application_rows df columns kws ekws).rows ↔
      (r ∈ df.rows
        ∧ (∃ c ∈ columns, c ∈ df.cols ∧ ∃ k ∈ kws, strContainsCI (getV r c) k = true)
        ∧ ¬ ∃ c ∈ columns, c ∈ df.cols ∧ ∃ k ∈ ekws, strContainsCI (getV r c) k = true) := by
  have hk2 : kws.isEmpty = false := by simpa [List.isEmpty_iff] using hk
  have he2 : ekws.isEmpty = false := by simpa [List.isEmpty_iff] using he
  unfold extract_job_application_rows
  rw [List.mem_filter]
  constructor
  · rintro ⟨hmem, hp⟩
    rw [Bool.and_eq_true, Bool.not_eq_true'] at hp
    refine ⟨hmem, (anyCol_exists _ _ _ _ hk2).mp hp.1, ?_⟩
    intro hex
    rw [(anyCol_exists _ _ _ _ he2).mpr hex] at hp
    cases hp.2
  · rintro ⟨hmem, h1, h2⟩
    refine ⟨hmem, ?_⟩
    rw [Bool.and_eq_true, Bool.not_eq_true']
    refine ⟨(anyCol_exists _ _ _ _ hk2).mpr h1, ?_⟩
    cases hb : anyColMatches df.cols columns ekws r
    · rfl
    · exact absurd ((anyCol_exists _ _ _ _ he2).mp hb) h2

/-- C2 counterexample: on the concrete frame dfC2 the code extracts the
status abc, while the maximal status run immediately following the first
occurrence of the label followed by a slash in that Labels value is the
empty string. -/
theorem C2_counterexample :
    (transform_dataframe paOk "JOBS" dfC2).map
        (fun out => out.rows.map (fun r => getV r "ApplicationStatus")) = some ["abc"]
      ∧ firstOccRun "JOBS" lblC2 = some ""
      ∧ ("abc" : String) ≠ "" :=
  ⟨rfl, rfl, by decide⟩

/-- C2 (amended): every ApplicationStatus value that transform_dataframe
produces is the greedy status capture at the leftmost position of the kept
row's Labels string where label_name, a slash and at least one character
other than a slash and an apostrophe occur; no earlier position carries a
full match of the regex. -/
theorem C2_amended_status_leftmost (pa : String → String × String) (ln : String)
    (df out : DataFrame) (h : transform_dataframe pa ln df = some out) :
    List.Forall₂ (fun r r2 => ∃ k,
        matchAt (ln.toList ++ ['/']) (getV r "Labels").toList k = true
        ∧ (∀ j, j < k → matchAt (ln.toList ++ ['/']) (getV r "Labels").toList j = false)
        ∧ getV r2 "ApplicationStatus"
            = String.mk (runAt (ln.toList ++ ['/']) (getV r "Labels").toList k))
      (keptRows ln df) out.rows := by
  obtain ⟨hmap, _⟩ := transform_dataframe_some pa ln df out h
  refine (optMapM_some _ _ _ hmap).imp ?_
  intro r r2 hr
  unfold transformRow statusSearch at hr
  cases hsr : searchStatus (ln.toList ++ ['/']) (getV r "Labels").toList with
  | none => rw [hsr] at hr; simp at hr
  | some run =>
    rw [hsr] at hr
    simp only [Option.map_some', Option.some.injEq] at hr
    obtain ⟨k, h1, h2, h3⟩ := searchStatus_some _ _ _ hsr
    refine ⟨k, h1, h2, ?_⟩
    rw [← hr, getV_dropRowCols _ _ (by rfl), getV_upsert_other _ _ _ _ (by decide),
      getV_upsert_other _ _ _ _ (by decide), getV_upsert_same, h3]

/-- C3 counterexample: a Labels value equal to JOBS passes the label filter
for label JOBS (the row is retained), yet the status search fails, so
transform_dataframe reaches the failed-search branch and the claim's
unreachability statement is false. -/
theorem C3_counterexample :
    strContains "JOBS" "JOBS" = true
      ∧ keptRows "JOBS" dfC3 = dfC3.rows
      ∧ statusSearch "JOBS" "JOBS" = none
      ∧ transform_dataframe paOk "JOBS" dfC3 = none :=
  ⟨rfl, rfl, rfl, rfl⟩

/-- C3 (amended): the failed-search branch is unreachable for every row
whose Labels value has a position carrying label_name, then a slash, then at
least one character other than a slash and an apostrophe: on such rows the
per-row transform succeeds. -/
theorem C3_amended_search_succeeds (pa : String → String × String) (ln : String) (r : Row)
    (h : ∃ k, matchAt (ln.toList ++ ['/']) (getV r "Labels").toList k = true) :
    (transformRow pa ln r).isSome = true := by
  obtain ⟨k, hk⟩ := h
  unfold transformRow statusSearch
  cases hsr : searchStatus (ln.toList ++ ['/']) (getV r "Labels").toList with
  | none =>
    have hall := searchStatus_none _ _ hsr k
    rw [hk] at hall
    cases hall
  | some run => rfl

/-- C4: the rows kept by extract_job_application_rows are a sublist of the
input rows, and every output row of transform_dataframe is the image of a
distinct input row, in input order, with no duplication and no invention. -/
theorem C4_rows_subset (pa : String → String × String) (ln : String) (df : DataFrame)
    (columns kws ekws : List String) :
    ((extract_job_application_rows df columns kws ekws).rows).Sublist df.rows
      ∧ ∀ out, transform_dataframe pa ln df = some out →
          ∃ kept, kept.Sublist df.rows
            ∧ List.Forall₂ (fun r r2 => transformRow pa ln r = some r2) kept out.rows := by
  constructor
  · unfold extract_job_application_rows
    exact List.filter_sublist _
  · intro out h
    obtain ⟨hmap, _⟩ := transform_dataframe_some pa ln df out h
    exact ⟨keptRows ln df, keptRows_sublist ln df, optMapM_some _ _ _ hmap⟩

/-- C5: in every row transform_dataframe outputs, the Name value is the
first component and the Email value the second component of parseaddr
applied to the corresponding kept input row's From value. -/
theorem C5_name_email (pa : String → String × String) (ln : String) (df out : DataFrame)
    (h : transform_dataframe pa ln df = some out) :
    List.Forall₂ (fun r r2 =>
        getV r2 "Name" = (pa (getV r "From")).1
          ∧ getV r2 "Email" = (pa (getV r "From")).2)
      (keptRows ln df) out.rows := by
  obtain ⟨hmap, _⟩ := transform_dataframe_some pa ln df out h
  refine (optMapM_some _ _ _ hmap).imp ?_
  intro r r2 hr
  unfold transformRow at hr
  cases hs : statusSearch ln (getV r "Labels") with
  | none => rw [hs] at hr; simp at hr
  | some st =>
    rw [hs] at hr
    simp only [Option.map_some', Option.some.injEq] at hr
    constructor
    · rw [← hr, getV_dropRowCols _ _ (by rfl), getV_upsert_other _ _ _ _ (by decide),
        getV_upsert_same]
    · rw [← hr, getV_dropRowCols _ _ (by rfl), getV_upsert_same]

/-- C6: when the five dropped columns are all present in the input, the
output column set of transform_dataframe is the input column set minus the
dropped five plus ApplicationStatus, Name and Email; every other input
column survives. -/
theorem C6_columns (pa : String → String × String) (ln : String) (df out : DataFrame)
    (_h5 : ∀ c ∈ droppedCols, c ∈ df.cols) (h : transform_dataframe pa ln df = some out) :
    ∀ c, c ∈ out.cols ↔
      ((c ∈ df.cols ∧ c ∉ droppedCols)
        ∨ c ∈ (["ApplicationStatus", "Name", "Email"] : List String)) := by
  obtain ⟨_, hcols⟩ := transform_dataframe_some pa ln df out h
  intro c
  rw [hcols, List.mem_filter]
  unfold assignedCols
  rw [mem_addCol, mem_addCol, mem_addCol, Bool.not_eq_true', contains_false_iff]
  constructor
  · rintro ⟨hc, hnd⟩
    rcases hc with ((hc | rfl) | rfl) | rfl
    · exact Or.inl ⟨hc, hnd⟩
    · exact Or.inr (by simp)
    · exact Or.inr (by simp)
    · exact Or.inr (by simp)
  · rintro (⟨hc, hnd⟩ | hc3)
    · exact ⟨Or.inl (Or.inl (Or.inl hc)), hnd⟩
    · rcases List.mem_cons.mp hc3 with rfl | hc3
      · exact ⟨Or.inl (Or.inl (Or.inr rfl)), by decide⟩
      · rcases List.mem_cons.mp hc3 with rfl | hc3
        · exact ⟨Or.inl (Or.inr rfl), by decide⟩
        · rcases List.mem_cons.mp hc3 with rfl | hc3
          · exact ⟨Or.inr rfl, by decide⟩
          · cases hc3

/-- C8: for both CLI scripts, an input path that does not end in .csv
case-insensitively makes validate_input_file raise ValueError, and a .csv
path that does not exist makes it raise FileNotFoundError; in either case
the run exits with status 1 and writes no output file. -/
theorem C8_validation (fsExists : String → Bool) (readCsv : String → Option DataFrame)
    (pa : String → String × String) (input outPath ln : String) (dry : Bool)
    (columns kws ekws : List String) :
    (csvSuffix input = false →
      validate_input_file fsExists input = Except.error ValidateError.valueError
        ∧ transform_labels_run fsExists readCsv pa input outPath ln dry = ⟨1, none⟩
        ∧ filter_job_applications_run fsExists readCsv input outPath columns kws ekws dry
            = ⟨1, none⟩)
    ∧ (csvSuffix input = true → fsExists input = false →
      validate_input_file fsExists input = Except.error ValidateError.fileNotFound
        ∧ transform_labels_run fsExists readCsv pa input outPath ln dry = ⟨1, none⟩
        ∧ filter_job_applications_run fsExists readCsv input outPath columns kws ekws dry
            = ⟨1, none⟩) := by
  constructor
  · intro hcsv
    have hv : validate_input_file fsExists input = Except.error ValidateError.valueError := by
      unfold validate_input_file
      rw [hcsv]
      rfl
    refine ⟨hv, ?_, ?_⟩
    · unfold transform_labels_run
      rw [hv]
    · unfold filter_job_applications_run
      rw [hv]
  · intro hcsv hex
    have hv :
        validate_input_file fsExists input = Except.error ValidateError.fileNotFound := by
      unfold validate_input_file
      rw [hcsv, hex]
      rfl
    refine ⟨hv, ?_, ?_⟩
    · unfold transform_labels_run
      rw [hv]
    · unfold filter_job_applications_run
      rw [hv]

theorem fetchLoop_eq (svc : ServiceModel) (columns : List String) :
    ∀ (pages : List (List String)) (acc : List MessageRow),
      fetchLoop svc columns pages acc
        = acc ++ (pages.flatten).map (mkRow svc columns) := by
  intro pages
  induction pages with
  | nil => intro acc; simp [fetchLoop]
  | cons page rest ih =>
    intro acc
    unfold fetchLoop
    rw [ih]
    simp

/-- C9: with the remote API embedded as a finite page sequence, the fetch
loop follows the pages in order and returns exactly one row per message
across all pages in fetch order; each row's Labels value maps the message's
label ids through the label mapping with Unknown for absent ids, and the
row carries Body, ID and the requested header fields as built by mkRow. -/
theorem C9_fetch_rows (svc : ServiceModel) (columns : List String) :
    fetch_gmail_messages_as_df svc columns = (svc.pages.flatten).map (mkRow svc columns)
      ∧ (fetch_gmail_messages_as_df svc columns).length = (svc.pages.map List.length).sum
      ∧ ∀ mid, (mkRow svc columns mid).labels
          = (svc.getMsg mid).labelIds.map (fun i =>
              (((fetch_label_mapping svc.labels).find? (fun kv => kv.1 == i)).map
                (fun kv => kv.2)).getD "Unknown") := by
  have h1 : fetch_gmail_messages_as_df svc columns
      = (svc.pages.flatten).map (mkRow svc columns) := by
    unfold fetch_gmail_messages_as_df
    rw [fetchLoop_eq]
    simp
  refine ⟨h1, ?_, ?_⟩
  · rw [h1, List.length_map, List.length_flatten]
  · intro mid
    unfold mkRow
    refine List.map_eq_map_iff.mpr ?_
    intro i _
    unfold lookupLabel
    cases hf : (fetch_label_mapping svc.labels).find? (fun kv => kv.1 == i) with
    | none => simp
    | some kv => simp

/-- C10: every row transform_dataframe outputs originates from an input row
whose From value does not start with the literal Arthur Zakirov, and every
input row whose From value does start with it is removed by the row filter,
whatever the parseaddr function, the label name and the frame. -/
theorem C10_sent_removed (pa : String → String × String) (ln : String) (df out : DataFrame)
    (h : transform_dataframe pa ln df = some out) :
    (∀ r2 ∈ out.rows, ∃ r ∈ df.rows,
        transformRow pa ln r = some r2
          ∧ strStartsWith (getV r "From") "Arthur Zakirov" = false)
      ∧ ∀ r ∈ df.rows, strStartsWith (getV r "From") "Arthur Zakirov" = true →
          r ∉ keptRows ln df := by
  obtain ⟨hmap, _⟩ := transform_dataframe_some pa ln df out h
  have hf := optMapM_some _ _ _ hmap
  constructor
  · intro r2 hr2
    obtain ⟨r, hrk, hr⟩ := forall2_mem_right hf hr2
    obtain ⟨hmem, _, hsent⟩ := keptRows_mem ln df r hrk
    exact ⟨r, hmem, hr, hsent⟩
  · intro r _ hstart hk
    obtain ⟨_, _, hsent⟩ := keptRows_mem ln df r hk
    rw [hstart] at hsent
    cases hsent

/-! Witnesses: the claim theorems evaluated at concrete inputs. -/

/-- A concrete frame for the keyword filter. -/
def dfF : DataFrame :=
  ⟨["Subject"],
   [[("Subject", "My Application")], [("Subject", "github application")],
    [("Subject", "news")]]⟩

/-- A filesystem on which no path exists. -/
def fsNone : String → Bool := fun _ => false

/-- A CSV reader that always fails. -/
def rcNone : String → Option DataFrame := fun _ => none

/-- Witness for C1 at a concrete frame, keyword lists and row. -/
theorem C1_witness :
    (["application"] : List String) ≠ [] ∧ (["github"] : List String) ≠ []
      ∧ ([("Subject", "My Application")] ∈
            (extract_job_application_rows dfF ["Subject"] ["application"] ["github"]).rows ↔
          ([("Subject", "My Application")] ∈ dfF.rows
            ∧ (∃ c ∈ (["Subject"] : List String), c ∈ dfF.cols
                ∧ ∃ k ∈ (["application"] : List String),
                    strContainsCI (getV [("Subject", "My Application")] c) k = true)
            ∧ ¬ ∃ c ∈ (["Subject"] : List String), c ∈ dfF.cols
                ∧ ∃ k ∈ (["github"] : List String),
                    strContainsCI (getV [("Subject", "My Application")] c) k = true)) :=
  ⟨by decide, by decide,
   C1_extract_keep_iff dfF ["Subject"] ["application"] ["github"] (by decide) (by decide)
     [("Subject", "My Application")]⟩

/-- Witness for the amended C2 on the concrete frame dfOk. -/
theorem C2_amended_witness :
    List.Forall₂ (fun r r2 => ∃ k,
        matchAt ("JOBS".toList ++ ['/']) (getV r "Labels").toList k = true
        ∧ (∀ j, j < k →
            matchAt ("JOBS".toList ++ ['/']) (getV r "Labels").toList j = false)
        ∧ getV r2 "ApplicationStatus"
            = String.mk (runAt ("JOBS".toList ++ ['/']) (getV r "Labels").toList k))
      (keptRows "JOBS" dfOk) outOk.rows :=
  C2_amended_status_leftmost paOk "JOBS" dfOk outOk rfl

/-- Witness for the amended C3 on a concrete row. -/
theorem C3_amended_witness :
    (∃ k, matchAt ("JOBS".toList ++ ['/']) (getV rowOk1 "Labels").toList k = true)
      ∧ (transformRow paOk "JOBS" rowOk1).isSome = true :=
  ⟨⟨0, by decide⟩, C3_amended_search_succeeds paOk "JOBS" rowOk1 ⟨0, by decide⟩⟩

/-- Witness for C4 on the concrete frame dfOk. -/
theorem C4_witness :
    ((extract_job_application_rows dfOk ["Subject"] ["application"] ["github"]).rows).Sublist
        dfOk.rows
      ∧ ∃ kept, kept.Sublist dfOk.rows
          ∧ List.Forall₂ (fun r r2 => transformRow paOk "JOBS" r = some r2) kept
              outOk.rows :=
  ⟨(C4_rows_subset paOk "JOBS" dfOk ["Subject"] ["application"] ["github"]).1,
   (C4_rows_subset paOk "JOBS" dfOk ["Subject"] ["application"] ["github"]).2 outOk rfl⟩

/-- Witness for C5 on the concrete frame dfOk. -/
theorem C5_witness :
    List.Forall₂ (fun r r2 =>
        getV r2 "Name" = (paOk (getV r "From")).1
          ∧ getV r2 "Email" = (paOk (getV r "From")).2)
      (keptRows "JOBS" dfOk) outOk.rows :=
  C5_name_email paOk "JOBS" dfOk outOk rfl

/-- Witness for C6 on the concrete frame dfOk at the Subject column. -/
theorem C6_witness :
    "Subject" ∈ outOk.cols ↔
      (("Subject" ∈ dfOk.cols ∧ "Subject" ∉ droppedCols)
        ∨ "Subject" ∈ (["ApplicationStatus", "Name", "Email"] : List String)) :=
  C6_columns paOk "JOBS" dfOk outOk (by decide) rfl "Subject"

/-- Witness for C8 at a non-csv path and at a missing csv path. -/
theorem C8_witness :
    (validate_input_file fsNone "emails.txt" = Except.error ValidateError.valueError
      ∧ transform_labels_run fsNone rcNone paOk "emails.txt" "out.csv" "JOBS" false
          = ⟨1, none⟩
      ∧ filter_job_applications_run fsNone rcNone "emails.txt" "out.csv" ["Subject"]
          ["application"] ["github"] false = ⟨1, none⟩)
    ∧ (validate_input_file fsNone "emails.csv" = Except.error ValidateError.fileNotFound
      ∧ transform_labels_run fsNone rcNone paOk "emails.csv" "out.csv" "JOBS" false
          = ⟨1, none⟩
      ∧ filter_job_applications_run fsNone rcNone "emails.csv" "out.csv" ["Subject"]
          ["application"] ["github"] false = ⟨1, none⟩) :=
  ⟨(C8_validation fsNone rcNone paOk "emails.txt" "out.csv" "JOBS" false ["Subject"]
      ["application"] ["github"]).1 (by decide),
   (C8_validation fsNone rcNone paOk "emails.csv" "out.csv" "JOBS" false ["Subject"]
      ["application"] ["github"]).2 (by decide) rfl⟩

/-- Witness for C10 on the concrete frame dfOk: the output row originates
from a non-sent row, and the sent row rowOk2 is removed. -/
theorem C10_witness :
    (∃ r ∈ dfOk.rows,
        transformRow paOk "JOBS" r
            = some [("Subject", "application received"), ("ApplicationStatus", "Applied"),
                ("Name", ""), ("Email", "HR Team hr@x.com")]
          ∧ strStartsWith (getV r "From") "Arthur Zakirov" = false)
      ∧ rowOk2 ∉ keptRows "JOBS" dfOk :=
  ⟨(C10_sent_removed paOk "JOBS" dfOk outOk rfl).1 _ (by decide),
   (C10_sent_removed paOk "JOBS" dfOk outOk rfl).2 rowOk2 (by decide) rfl⟩

end GmailSpec

